import Mathlib

/-!
Verification of the TidyJSON recursive-descent parser (src/tidyJSON.py).

The parser state, scalar parsers, the generalized collection parser and the
structured diagnostics are embedded as executable Lean definitions over
`List Char` source text and a `Nat` cursor index.  Loops of the source become
fuel-bounded recursions: the three character-scanning `while` loops advance the
index by at least one per iteration and can run for at most
`json_str.length - index` steps, so that bound is used as their fuel; the
mutually recursive descent (`parse_json` / `parse_collection`) takes an
explicit caller-supplied fuel, since malformed nesting is unbounded.
Fallible Python operations are embedded in `Except`: structured
`ErrorManager` exceptions as `PErr.diag`, and untyped runtime failures
(`ValueError` from numeric conversion, `AttributeError` from calling a method
on `None`) as distinguished error constructors.
-/

/-- The error taxonomy of `TidyErrorType` (src lines 10-28). -/
inductive TidyErrorType where
  | INVALID_CHARACTER
  | MISSING_BRACKET
  | MISSING_QUOTE
  | UNEXPECTED_TOKEN
deriving Repr, DecidableEq

/-- Python slicing `s[a:b]` for non-negative clamped bounds `a`, `b`. -/
def py_slice (s : List Char) (a b : Nat) : List Char :=
  (s.drop a).take (b - a)

/-- The structured exception `ErrorManager` (src lines 34-105): an error kind,
the cursor position at which it was raised, and the source text. -/
structure ErrorManager where
  error_type : TidyErrorType
  position : Nat
  json_str : List Char
deriving Repr, DecidableEq

/-- `ErrorManager._get_context` (src lines 86-105):
`json_str[max(0, position - 10) : min(len(json_str), position + 10)]`,
computed with Python integer arithmetic. -/
def get_context (position : Nat) (json_str : List Char) : List Char :=
  py_slice json_str (max 0 ((position : Int) - 10)).toNat
    (min (json_str.length : Int) ((position : Int) + 10)).toNat

/-- The derived `error_context` attribute set in `__attrs_post_init__`. -/
def ErrorManager.error_context (e : ErrorManager) : List Char :=
  get_context e.position e.json_str

/-- The Python values a parse can produce: `None`, booleans, ints, floats,
strings, lists and (insertion-ordered) dicts.  Floats are modelled as exact
rationals; the modelled fragment of `float()` below only accepts plain decimal
tokens, whose values on the inputs of this development are exactly
representable. -/
inductive JValue where
  | null
  | bool (b : Bool)
  | int (n : Int)
  | float (q : ℚ)
  | str (s : List Char)
  | arr (elts : List JValue)
  | obj (entries : List (JValue × JValue))

/-- Failure outcomes of a parse step.  `diag` is a raised `ErrorManager`;
`valueError` is the untyped `ValueError` escaping from `int()` / `float()`;
`attributeError` is the `AttributeError` raised by `None.isdigit()` in
`parse_json`; `noFuel` marks fuel exhaustion of the embedding (never the
Python program's own behavior). -/
inductive PErr where
  | diag (e : ErrorManager)
  | valueError (token : List Char)
  | attributeError
  | noFuel
deriving Repr, DecidableEq

/-- The mutable parser state: the source text and the cursor index
(`TidyJSONParser.json_str` / `TidyJSONParser.index`).  The index is embedded
as `Nat`: every operation of the source only ever increments it. -/
structure PState where
  json_str : List Char
  index : Nat
deriving Repr, DecidableEq

/-- Result of a state-passing parse step. -/
abbrev PRes (α : Type) := Except PErr (α × PState)

/-- `TidyJSONParser.get_char` (src lines 446-459): the character at the
current index, or `none` past the end. -/
def get_char (st : PState) : Option Char :=
  if h : st.index < st.json_str.length then some (st.json_str.get ⟨st.index, h⟩)
  else none

/-- One fuel-bounded scanning loop: `while <p (current char)>: index += 1`.
The loop stops at end-of-input (Python's `None` never satisfies the source
conditions).  Structurally recursive on the fuel so that concrete runs reduce
definitionally. -/
def scan_while_go (p : Char → Bool) : Nat → PState → PState
  | 0, st => st
  | fuel + 1, st =>
    match get_char st with
    | some c =>
      if p c then scan_while_go p fuel { st with index := st.index + 1 } else st
    | none => st

/-- A scanning loop advances at least once per iteration while inside the
text, so `json_str.length - index` bounds its iteration count and serves as
its fuel. -/
def scan_while (p : Char → Bool) (st : PState) : PState :=
  scan_while_go p (st.json_str.length - st.index) st

/-- `TidyJSONParser.skip_spaces_and_char` (src lines 364-378):
`while self.get_char() in [char, " "]: self.index += 1`. -/
def skip_spaces_and_char (ch : Char) (st : PState) : PState :=
  scan_while (fun c => c == ch || c == ' ') st

/-- Loop condition of `parse_string` (src line 394):
`self.get_char() != '"' and self.get_char() is not None`. -/
def string_cond (c : Char) : Bool := c != '"'

/-- `TidyJSONParser.parse_string` (src lines 380-398): skip the opening
quote, scan to the next quote or end-of-input, return the slice between and
step past the closing position.  Note: the source never raises here; on
end-of-input it silently returns the scanned suffix. -/
def parse_string (st : PState) : PRes JValue :=
  let start := st.index + 1
  let st1 := scan_while string_cond { st with index := st.index + 1 }
  .ok (.str (py_slice st.json_str start st1.index), { st1 with index := st1.index + 1 })

/-- Loop condition of `parse_number` (src line 414):
`self.get_char() not in [None, ",", " ", "}", "]"]` (the `None` case is the
loop's end-of-input stop). -/
def number_cond (c : Char) : Bool :=
  !(c == ',' || c == ' ' || c == '\x7d' || c == ']')

/-- Modelled fragment of Python `int()`: an optional sign followed by a
non-empty run of ASCII digits.  (Python's underscore separators, non-ASCII
digits and surrounding whitespace are outside the fragment exercised here.)
`none` is a raised `ValueError`. -/
def py_int_digits (cs : List Char) : Option Nat :=
  if cs ≠ [] ∧ cs.all (fun c => c.isDigit) then
    some (cs.foldl (fun acc c => acc * 10 + (c.toNat - 48)) 0)
  else none

def py_int (cs : List Char) : Option Int :=
  match cs with
  | '-' :: rest => (py_int_digits rest).map (fun n => -(n : Int))
  | '+' :: rest => (py_int_digits rest).map (fun n => (n : Int))
  | _ => (py_int_digits cs).map (fun n => (n : Int))

/-- Decimal value of a digit run. -/
def digits_val (cs : List Char) : Nat :=
  cs.foldl (fun acc c => acc * 10 + (c.toNat - 48)) 0

/-- Modelled fragment of Python `float()` for tokens containing a dot:
optional sign, ASCII digits around a single `.`, at least one digit in total.
The value is the exact decimal rational (exactly the IEEE value for every
token appearing in this development).  Exponent forms are outside the
fragment — the spec declares no exponent support.  `none` is a raised
`ValueError`. -/
def py_float_val (cs : List Char) : Option ℚ :=
  let ip := cs.takeWhile (fun c => c.isDigit)
  match cs.dropWhile (fun c => c.isDigit) with
  | '.' :: fp =>
    if (ip ≠ [] ∨ fp ≠ []) ∧ fp.all (fun c => c.isDigit) then
      some ((digits_val ip : ℚ) + (digits_val fp : ℚ) / ((10 : ℚ) ^ fp.length))
    else none
  | _ => none

def py_float (cs : List Char) : Option ℚ :=
  match cs with
  | '-' :: rest => (py_float_val rest).map (fun q => -q)
  | '+' :: rest => py_float_val rest
  | _ => py_float_val cs

/-- The final line of `parse_number` (src line 417):
`return float(num_str) if "." in num_str else int(num_str)`, with a
conversion failure escaping as an untyped `ValueError`. -/
def num_convert (num_str : List Char) (st1 : PState) : PRes JValue :=
  if num_str.contains '.' then
    match py_float num_str with
    | some q => .ok (.float q, st1)
    | none => .error (.valueError num_str)
  else
    match py_int num_str with
    | some n => .ok (.int n, st1)
    | none => .error (.valueError num_str)

/-- `TidyJSONParser.parse_number` (src lines 400-417): scan while the current
character is none of end-of-input, `,`, space, `}`, `]`; then convert the
scanned slice. -/
def parse_number (st : PState) : PRes JValue :=
  num_convert (py_slice st.json_str st.index (scan_while number_cond st).index)
    (scan_while number_cond st)

/-- Python `json_str.startswith(lit, i)`. -/
def py_startswith (s lit : List Char) (i : Nat) : Bool :=
  lit.isPrefixOf (s.drop i)

/-- The literal table of `parse_boolean_or_null` (src line 436). -/
def literals : List (List Char × JValue) :=
  [(['t', 'r', 'u', 'e'], .bool true),
   (['f', 'a', 'l', 's', 'e'], .bool false),
   (['n', 'u', 'l', 'l'], .null)]

/-- The `for literal, value in ...` loop of `parse_boolean_or_null`
(src lines 436-444): first matching literal wins, otherwise raise
`UNEXPECTED_TOKEN` at the current position. -/
def try_literals : List (List Char × JValue) → PState → PRes JValue
  | [], st => .error (.diag ⟨.UNEXPECTED_TOKEN, st.index, st.json_str⟩)
  | (lit, v) :: rest, st =>
    if py_startswith st.json_str lit st.index then
      .ok (v, { st with index := st.index + lit.length })
    else try_literals rest st

/-- `TidyJSONParser.parse_boolean_or_null` (src lines 419-444). -/
def parse_boolean_or_null (st : PState) : PRes JValue :=
  try_literals literals st

/-- Python scalar equality used for dict keys.  Keys reaching
`collection[key] = value` in this parser are hashable scalars; cross-type
numeric equality (`1 == 1.0`) and unhashable keys are outside the modelled
fragment (no claim exercises them). -/
def jkey_eq : JValue → JValue → Bool
  | .null, .null => true
  | .bool a, .bool b => a == b
  | .int a, .int b => a == b
  | .float a, .float b => a == b
  | .str a, .str b => a == b
  | _, _ => false

/-- Python `collection[key] = value` on an insertion-ordered dict: if the key
is present, its value is replaced in place (last write wins); otherwise the
pair is appended. -/
def dict_set (kvs : List (JValue × JValue)) (k v : JValue) :
    List (JValue × JValue) :=
  if kvs.any (fun p => jkey_eq p.1 k) then
    kvs.map (fun p => if jkey_eq p.1 k then (p.1, v) else p)
  else kvs ++ [(k, v)]

/-- Lookup in the insertion-ordered dict model. -/
def assoc_find (kvs : List (JValue × JValue)) (k : JValue) : Option JValue :=
  (kvs.find? (fun p => jkey_eq p.1 k)).map (fun p => p.2)

/-- The `while` loop of `parse_collection` (src lines 353-360).  `parse_fn`
is the `parse_func` parameter of the source; `pj` is the dispatcher used by
the dict branch (`self.parse_json` in the source).  Each iteration: parse one
element; for a dict, skip the delimiter and parse the associated value; for a
list, append; then skip a trailing `,`. -/
def collection_loop (end_char : Char) (parse_fn : PState → PRes JValue)
    (delimiter : Char) (pj : PState → PRes JValue) :
    Nat → JValue → PState → PRes JValue
  | 0, _, _ => .error .noFuel
  | fuel + 1, col, st =>
    if get_char st ≠ some end_char ∧ get_char st ≠ none then
      match parse_fn st with
      | .error e => .error e
      | .ok (key_or_value, st1) =>
        match col with
        | .obj kvs =>
          match pj (skip_spaces_and_char delimiter st1) with
          | .error e => .error e
          | .ok (v, st2) =>
            collection_loop end_char parse_fn delimiter pj fuel
              (.obj (dict_set kvs key_or_value v)) (skip_spaces_and_char ',' st2)
        | .arr elts =>
          collection_loop end_char parse_fn delimiter pj fuel
            (.arr (elts ++ [key_or_value])) (skip_spaces_and_char ',' st1)
        | _ => .error .attributeError
    else .ok (col, st)

/-- `TidyJSONParser.parse_collection` (src lines 325-362): step past the
opening bracket, start from an empty dict (`end_char == "}"`) or list, run
the element loop, step past the closing position, return the collection.
Note the final `index += 1` happens whether or not the loop stopped on
`end_char`. -/
def parse_collection (end_char : Char) (parse_fn : PState → PRes JValue)
    (delimiter : Char) (pj : PState → PRes JValue) (fuel : Nat)
    (st : PState) : PRes JValue :=
  match collection_loop end_char parse_fn delimiter pj fuel
      (if end_char = '\x7d' then .obj [] else .arr [])
      { st with index := st.index + 1 } with
  | .error e => .error e
  | .ok (col, st2) => .ok (col, { st2 with index := st2.index + 1 })

/-- `TidyJSONParser.parse_array` (src lines 309-323):
`parse_collection(end_char="]", parse_func=self.parse_json, delimiter=",")`. -/
def parse_array (pj : PState → PRes JValue) (fuel : Nat) (st : PState) :
    PRes JValue :=
  parse_collection ']' pj ',' pj fuel st

/-- Modelled from the spec: the source's `parse_object` (src lines 297-307)
carries only a docstring — its body is missing.  Spec §9 ("Incomplete
collection path") requires it to funnel through the same generalized
collection parser as arrays, configured with end character `}` and a `:`
separator skipped before each value; object keys go through the value
dispatcher exactly as array elements do (§4.3). -/
def parse_object (pj : PState → PRes JValue) (fuel : Nat) (st : PState) :
    PRes JValue :=
  parse_collection '\x7d' pj ':' pj fuel st

/-- `TidyJSONParser.parse_json` (src lines 254-295), the value dispatcher:
route on the current character through the lookup table
`{"{", "[", '"', "-", "t"}`, then `char.isdigit()`, else raise
`UNEXPECTED_TOKEN` at the current position.  At end-of-input `get_char`
returns `None`, the table lookup misses, and `None.isdigit()` raises
`AttributeError`. -/
def parse_json : Nat → PState → PRes JValue
  | 0, _ => .error .noFuel
  | fuel + 1, st =>
    match get_char st with
    | none => .error .attributeError
    | some char =>
      if char = '\x7b' then parse_object (parse_json fuel) fuel st
      else if char = '[' then parse_array (parse_json fuel) fuel st
      else if char = '"' then parse_string st
      else if char = '-' then parse_number st
      else if char = 't' then parse_boolean_or_null st
      else if char.isDigit then parse_number st
      else .error (.diag ⟨.UNEXPECTED_TOKEN, st.index, st.json_str⟩)

/-- The Number Parser as spec §4.5 states it: from the current position the
scanned token is the longest run of characters none of which is `,`, space,
`}` or `]` (end-of-input also stops the scan); the position advances past the
token, which is converted as a float if it contains `.` and as an integer
otherwise. -/
def parse_number_spec (st : PState) : PRes JValue :=
  num_convert ((st.json_str.drop st.index).takeWhile number_cond)
    ⟨st.json_str, st.index + ((st.json_str.drop st.index).takeWhile number_cond).length⟩

/- Concrete inputs used by the claims. -/

def s_obj_ab : List Char :=
  ['\x7b', '"', 'a', '"', ':', '1', ',', '"', 'b', '"', ':', '2', '\x7d']

def s_obj_aa : List Char :=
  ['\x7b', '"', 'a', '"', ':', '1', ',', '"', 'a', '"', ':', '2', '\x7d']

def s_arr_open : List Char := ['[', '1', ',', '2']

def s_str_open : List Char := ['"', 'a', 'b', 'c']

def s_true : List Char := ['t', 'r', 'u', 'e']

def s_false : List Char := ['f', 'a', 'l', 's', 'e']

def s_null : List Char := ['n', 'u', 'l', 'l']

def s_pct : List Char := ['%']

def s_three : List Char := ['3']

def s_threefive : List Char := ['3', '.', '5']

def s_negseven : List Char := ['-', '7']

def s_dash : List Char := ['-']

def s_arr_ddel : List Char := ['[', '1', ',', ',', '2', ']']

def s_arr_space : List Char := ['[', '1', ' ', '2', ']']

def s_abcde : List Char := ['a', 'b', 'c', 'd', 'e']

/-! ## Supporting lemmas -/

theorem get_char_eq_head (st : PState) :
    get_char st = (st.json_str.drop st.index).head? := by
  rw [List.head?_eq_getElem?, List.getElem?_drop]
  unfold get_char
  split
  · rename_i h
    rw [List.getElem?_eq_getElem (by omega)]
    simp [List.get_eq_getElem]
  · rename_i h
    rw [List.getElem?_eq_none (by omega)]

theorem get_char_some_lt {st : PState} {c : Char} (h : get_char st = some c) :
    st.index < st.json_str.length := by
  unfold get_char at h
  split at h
  · assumption
  · exact absurd h (by simp)

theorem get_char_none_le {st : PState} (h : get_char st = none) :
    st.json_str.length ≤ st.index := by
  unfold get_char at h
  split at h
  · exact absurd h (by simp)
  · omega

theorem get_char_some_val {st : PState} {c : Char}
    (h : get_char st = some c) (hlt : st.index < st.json_str.length) :
    st.json_str.get ⟨st.index, hlt⟩ = c := by
  unfold get_char at h
  split at h
  · exact Option.some.inj h
  · omega

theorem scan_while_go_eq (p : Char → Bool) :
    ∀ (fuel : Nat) (st : PState), st.json_str.length - st.index ≤ fuel →
      scan_while_go p fuel st =
        ⟨st.json_str, st.index + ((st.json_str.drop st.index).takeWhile p).length⟩ := by
  intro fuel
  induction fuel with
  | zero =>
    intro st h
    have hdrop : st.json_str.drop st.index = [] := by
      rw [List.drop_eq_nil_iff]
      omega
    simp [scan_while_go, hdrop]
  | succ n ih =>
    intro st h
    cases hc : get_char st with
    | none =>
      have hle := get_char_none_le hc
      have hdrop : st.json_str.drop st.index = [] := by
        rw [List.drop_eq_nil_iff]
        omega
      simp [scan_while_go, hc, hdrop]
    | some c =>
      have hlt := get_char_some_lt hc
      have hdrop : st.json_str.drop st.index =
          c :: st.json_str.drop (st.index + 1) := by
        rw [List.drop_eq_getElem_cons hlt]
        rw [show st.json_str[st.index] = c from get_char_some_val hc hlt]
      by_cases hp : p c
      · have hrec := ih { st with index := st.index + 1 } (by dsimp; omega)
        simp only [scan_while_go, hc, hp, if_true]
        rw [hrec]
        dsimp
        rw [hdrop, List.takeWhile_cons, if_pos hp]
        simp [Nat.add_comm, Nat.add_assoc, Nat.add_left_comm]
      · simp only [scan_while_go, hc, hp, if_false]
        rw [hdrop, List.takeWhile_cons, if_neg hp]
        simp

theorem scan_while_eq (p : Char → Bool) (st : PState) :
    scan_while p st =
      ⟨st.json_str, st.index + ((st.json_str.drop st.index).takeWhile p).length⟩ :=
  scan_while_go_eq p _ st (Nat.le_refl _)

theorem scan_while_index_le (p : Char → Bool) (st : PState) :
    st.index ≤ (scan_while p st).index := by
  rw [scan_while_eq]
  exact Nat.le_add_right _ _

theorem skip_index_le (ch : Char) (st : PState) :
    st.index ≤ (skip_spaces_and_char ch st).index :=
  scan_while_index_le _ st

theorem slice_scan (s : List Char) (i : Nat) (p : Char → Bool) :
    py_slice s i (i + ((s.drop i).takeWhile p).length) = (s.drop i).takeWhile p := by
  unfold py_slice
  rw [show i + ((s.drop i).takeWhile p).length - i = ((s.drop i).takeWhile p).length
    by omega]
  exact (List.prefix_iff_eq_take.1 (List.takeWhile_prefix p)).symm

theorem drop_takeWhile_length (p : Char → Bool) :
    ∀ l : List Char, l.drop (l.takeWhile p).length = l.dropWhile p := by
  intro l
  induction l with
  | nil => rfl
  | cons a t ih =>
    by_cases hp : p a
    · simp [List.takeWhile_cons, List.dropWhile_cons, hp, ih]
    · simp [List.takeWhile_cons, List.dropWhile_cons, hp]

theorem head_dropWhile_false (p : Char → Bool) :
    ∀ (l : List Char) (c : Char), (l.dropWhile p).head? = some c → p c = false := by
  intro l
  induction l with
  | nil => intro c h; simp [List.dropWhile] at h
  | cons a t ih =>
    intro c h
    by_cases hp : p a
    · rw [List.dropWhile_cons, if_pos hp] at h
      exact ih c h
    · rw [List.dropWhile_cons, if_neg hp] at h
      simp at h
      rw [← h]
      simpa using hp

theorem get_char_scan_while (p : Char → Bool) (st : PState) :
    get_char (scan_while p st) = ((st.json_str.drop st.index).dropWhile p).head? := by
  rw [scan_while_eq, get_char_eq_head]
  dsimp
  rw [← List.drop_drop, drop_takeWhile_length]

theorem skip_post (ch : Char) (st : PState) :
    get_char (skip_spaces_and_char ch st) ≠ some ch ∧
      get_char (skip_spaces_and_char ch st) ≠ some ' ' := by
  unfold skip_spaces_and_char
  rw [get_char_scan_while]
  constructor
  · intro h
    have hf := head_dropWhile_false _ _ _ h
    simp at hf
  · intro h
    have hf := head_dropWhile_false _ _ _ h
    simp at hf

theorem parse_number_eq_spec (st : PState) : parse_number st = parse_number_spec st := by
  unfold parse_number parse_number_spec
  rw [scan_while_eq]
  dsimp
  rw [slice_scan]

theorem num_convert_ok {cs : List Char} {st1 : PState} {v : JValue} {st2 : PState}
    (h : num_convert cs st1 = .ok (v, st2)) : st2 = st1 := by
  unfold num_convert at h
  split at h <;> split at h <;> simp_all

theorem parse_string_mono {st : PState} {v : JValue} {st2 : PState}
    (h : parse_string st = .ok (v, st2)) : st.index ≤ st2.index := by
  unfold parse_string at h
  simp only [Except.ok.injEq, Prod.mk.injEq] at h
  have h1 := scan_while_index_le string_cond { st with index := st.index + 1 }
  rw [← h.2]
  dsimp at h1 ⊢
  omega

theorem parse_number_mono {st : PState} {v : JValue} {st2 : PState}
    (h : parse_number st = .ok (v, st2)) : st.index ≤ st2.index := by
  unfold parse_number at h
  have h2 := num_convert_ok h
  rw [h2]
  exact scan_while_index_le number_cond st

theorem try_literals_mono :
    ∀ (ls : List (List Char × JValue)) (st : PState) (v : JValue) (st2 : PState),
      try_literals ls st = .ok (v, st2) → st.index ≤ st2.index := by
  intro ls
  induction ls with
  | nil => intro st v st2 h; simp [try_literals] at h
  | cons a rest ih =>
    intro st v st2 h
    obtain ⟨lit, vv⟩ := a
    simp only [try_literals] at h
    split at h
    · simp only [Except.ok.injEq, Prod.mk.injEq] at h
      rw [← h.2]
      dsimp
      omega
    · exact ih st v st2 h

theorem parse_boolean_or_null_mono {st : PState} {v : JValue} {st2 : PState}
    (h : parse_boolean_or_null st = .ok (v, st2)) : st.index ≤ st2.index :=
  try_literals_mono literals st v st2 h

theorem collection_loop_mono (end_char delimiter : Char)
    (parse_fn pj : PState → PRes JValue)
    (hpf : ∀ st v st2, parse_fn st = .ok (v, st2) → st.index ≤ st2.index)
    (hpj : ∀ st v st2, pj st = .ok (v, st2) → st.index ≤ st2.index) :
    ∀ (fuel : Nat) (col : JValue) (st : PState) (v : JValue) (st2 : PState),
      collection_loop end_char parse_fn delimiter pj fuel col st = .ok (v, st2) →
        st.index ≤ st2.index := by
  intro fuel
  induction fuel with
  | zero => intro col st v st2 h; simp [collection_loop] at h
  | succ n ih =>
    intro col st v st2 h
    simp only [collection_loop] at h
    split at h
    · cases hpf1 : parse_fn st with
      | error e => rw [hpf1] at h; simp at h
      | ok pr =>
        obtain ⟨kv, st1⟩ := pr
        rw [hpf1] at h
        have hle1 : st.index ≤ st1.index := hpf st kv st1 hpf1
        cases col with
        | obj kvs =>
          dsimp at h
          cases hpj1 : pj (skip_spaces_and_char delimiter st1) with
          | error e => rw [hpj1] at h; simp at h
          | ok pr2 =>
            obtain ⟨v2, st3⟩ := pr2
            rw [hpj1] at h
            dsimp at h
            have hle2 := skip_index_le delimiter st1
            have hle3 : (skip_spaces_and_char delimiter st1).index ≤ st3.index :=
              hpj _ v2 st3 hpj1
            have hle4 := skip_index_le ',' st3
            have hle5 := ih _ _ _ _ h
            omega
        | arr elts =>
          dsimp at h
          have hle4 := skip_index_le ',' st1
          have hle5 := ih _ _ _ _ h
          omega
        | null => simp at h
        | bool b => simp at h
        | int n => simp at h
        | float q => simp at h
        | str s => simp at h
    · simp only [Except.ok.injEq, Prod.mk.injEq] at h
      rw [← h.2]

theorem parse_collection_mono (end_char delimiter : Char)
    (parse_fn pj : PState → PRes JValue)
    (hpf : ∀ st v st2, parse_fn st = .ok (v, st2) → st.index ≤ st2.index)
    (hpj : ∀ st v st2, pj st = .ok (v, st2) → st.index ≤ st2.index)
    (fuel : Nat) {st : PState} {v : JValue} {st2 : PState}
    (h : parse_collection end_char parse_fn delimiter pj fuel st = .ok (v, st2)) :
    st.index ≤ st2.index := by
  unfold parse_collection at h
  cases hcl : collection_loop end_char parse_fn delimiter pj fuel
      (if end_char = '\x7d' then .obj [] else .arr [])
      { st with index := st.index + 1 } with
  | error e => rw [hcl] at h; simp at h
  | ok pr =>
    obtain ⟨col, st3⟩ := pr
    rw [hcl] at h
    dsimp at h
    simp only [Except.ok.injEq, Prod.mk.injEq] at h
    have hle := collection_loop_mono end_char delimiter parse_fn pj hpf hpj
      fuel _ _ _ _ hcl
    rw [← h.2]
    dsimp at hle ⊢
    omega

theorem parse_json_mono :
    ∀ (fuel : Nat) (st : PState) (v : JValue) (st2 : PState),
      parse_json fuel st = .ok (v, st2) → st.index ≤ st2.index := by
  intro fuel
  induction fuel with
  | zero => intro st v st2 h; simp [parse_json] at h
  | succ n ih =>
    intro st v st2 h
    simp only [parse_json] at h
    cases hc : get_char st with
    | none => rw [hc] at h; simp at h
    | some c =>
      rw [hc] at h
      dsimp at h
      split at h
      · exact parse_collection_mono _ _ _ _ ih ih n h
      · split at h
        · exact parse_collection_mono _ _ _ _ ih ih n h
        · split at h
          · exact parse_string_mono h
          · split at h
            · exact parse_number_mono h
            · split at h
              · exact parse_boolean_or_null_mono h
              · split at h
                · exact parse_number_mono h
                · simp at h

theorem jkey_eq_str_self (s : List Char) : jkey_eq (.str s) (.str s) = true := by
  simp [jkey_eq]

theorem assoc_find_map_replace (k v : JValue) :
    ∀ kvs : List (JValue × JValue), kvs.any (fun p => jkey_eq p.1 k) = true →
      assoc_find (kvs.map (fun p => if jkey_eq p.1 k then (p.1, v) else p)) k =
        some v := by
  intro kvs
  induction kvs with
  | nil => intro h; simp at h
  | cons a t ih =>
    intro h
    by_cases ha : jkey_eq a.1 k
    · simp [assoc_find, List.find?_cons, ha]
    · have hany : t.any (fun p => jkey_eq p.1 k) = true := by
        simp only [List.any_cons] at h
        rcases Bool.or_eq_true_iff.1 h with h1 | h1
        · exact absurd h1 ha
        · exact h1
      have hrec := ih hany
      simpa [assoc_find, List.find?_cons, ha] using hrec

theorem assoc_find_append_new (k v : JValue) (hk : jkey_eq k k = true) :
    ∀ kvs : List (JValue × JValue), kvs.any (fun p => jkey_eq p.1 k) = false →
      assoc_find (kvs ++ [(k, v)]) k = some v := by
  intro kvs
  induction kvs with
  | nil =>
    intro h
    simp [assoc_find, List.find?_cons, hk]
  | cons a t ih =>
    intro h
    simp only [List.any_cons, Bool.or_eq_false_iff] at h
    simp only [List.cons_append, assoc_find, List.find?_cons, h.1]
    exact ih h.2

theorem assoc_find_dict_set (kvs : List (JValue × JValue)) (s : List Char)
    (v : JValue) :
    assoc_find (dict_set kvs (.str s) v) (.str s) = some v := by
  unfold dict_set
  split
  · rename_i hany
    exact assoc_find_map_replace _ v kvs hany
  · rename_i hany
    exact assoc_find_append_new _ v (jkey_eq_str_self s) kvs (by simpa using hany)

/-! ## Claim theorems -/

/-- C1: Parsing the object text with keys `a`, `b` through the dispatcher
(`parse_json` routing the opening brace to the object parser) returns a
mapping whose entries appear in insertion order `a`, `b` with values `1`,
`2`; parsing the text with the repeated key `a` yields a mapping where the
later value `2` replaced the earlier `1`; and in general writing a
string-keyed entry into the mapping makes a subsequent lookup of that key
return the newly written value (last write wins). -/
theorem claim_c1_object_insertion_order :
    parse_json 100 ⟨s_obj_ab, 0⟩ =
      .ok (.obj [(.str ['a'], .int 1), (.str ['b'], .int 2)], ⟨s_obj_ab, 13⟩) ∧
    parse_json 100 ⟨s_obj_aa, 0⟩ =
      .ok (.obj [(.str ['a'], .int 2)], ⟨s_obj_aa, 13⟩) ∧
    ∀ (kvs : List (JValue × JValue)) (s : List Char) (v : JValue),
      assoc_find (dict_set kvs (.str s) v) (.str s) = some v :=
  ⟨rfl, rfl, fun kvs s v => assoc_find_dict_set kvs s v⟩

/-- Closed instance of the last-write-wins conjunct of C1. -/
theorem claim_c1_witness :
    assoc_find (dict_set [(JValue.str ['a'], JValue.int 1)] (.str ['a']) (.int 2))
      (.str ['a']) = some (.int 2) :=
  claim_c1_object_insertion_order.2.2 [(JValue.str ['a'], JValue.int 1)] ['a'] (.int 2)

/-- C2 (code behavior at the failing input): on `"[1,2"`, whose closing
bracket never appears, the parser does NOT fail with `MissingBracket`; the
collection loop exits at end-of-input, the final `index += 1` runs anyway,
and the silently truncated sequence `[1, 2]` is returned with the cursor at
5, one past the end of the 4-character input.  (`MISSING_BRACKET` is
declared in `TidyErrorType` but raised nowhere in the source.) -/
theorem claim_c2_unterminated_collection_truncated :
    parse_json 100 ⟨s_arr_open, 0⟩ = .ok (.arr [.int 1, .int 2], ⟨s_arr_open, 5⟩) := rfl

/-- C3 (code behavior at the failing input): on `'"abc'`, whose closing
quote never appears, `parse_string` does NOT fail with `MissingQuote`; the
scan stops at end-of-input and the scanned suffix `abc` is silently
returned, with the cursor stepped to 5, one past the end of the 4-character
input.  (`MISSING_QUOTE` is declared in `TidyErrorType` but raised nowhere
in the source.) -/
theorem claim_c3_unterminated_string_silent :
    parse_string ⟨s_str_open, 0⟩ = .ok (.str ['a', 'b', 'c'], ⟨s_str_open, 5⟩) ∧
    parse_json 100 ⟨s_str_open, 0⟩ = .ok (.str ['a', 'b', 'c'], ⟨s_str_open, 5⟩) :=
  ⟨rfl, rfl⟩

/-- C4 (code behavior): `"true"` parses to `Boolean(true)` because `'t'` is
in the dispatch table, but `"false"` and `"null"` do NOT reach the literal
parser: their first characters `'f'` and `'n'` miss the table, are not
digits, and the dispatcher raises `UNEXPECTED_TOKEN` at position 0 — even
though `parse_boolean_or_null` itself handles all three literals. -/
theorem claim_c4_literal_dispatch :
    parse_json 100 ⟨s_true, 0⟩ = .ok (.bool true, ⟨s_true, 4⟩) ∧
    parse_json 100 ⟨s_false, 0⟩ = .error (.diag ⟨.UNEXPECTED_TOKEN, 0, s_false⟩) ∧
    parse_json 100 ⟨s_null, 0⟩ = .error (.diag ⟨.UNEXPECTED_TOKEN, 0, s_null⟩) :=
  ⟨rfl, rfl, rfl⟩

/-- C5 (code behavior): on `"%"` the dispatcher raises `UNEXPECTED_TOKEN`
carrying position 0, as the claim states for unrecognized characters; but at
the end-of-input sentinel (empty input, `get_char` returning `None`) the
dispatcher does NOT produce an `UnexpectedToken` diagnostic — `None` misses
the dispatch table and `None.isdigit()` raises an untyped `AttributeError`. -/
theorem claim_c5_dispatcher_unexpected_token :
    parse_json 100 ⟨s_pct, 0⟩ = .error (.diag ⟨.UNEXPECTED_TOKEN, 0, s_pct⟩) ∧
    parse_json 100 ⟨([] : List Char), 0⟩ = .error .attributeError :=
  ⟨rfl, rfl⟩

/-- C6: for every error kind, position `p` and source `s`, the constructed
diagnostic's context snippet is `s[max(0, p - 10) : min(len(s), p + 10)]`
(expressed over `Nat` as dropping `p - 10` characters and taking up to the
clipped right edge); in particular, for a 5-character source and an error at
position 4 the context is exactly the whole source. -/
theorem claim_c6_context_window (k : TidyErrorType) (p : Nat) (s : List Char) :
    (ErrorManager.mk k p s).error_context =
      (s.drop (p - 10)).take (min s.length (p + 10) - (p - 10)) ∧
    (s.length = 5 → (ErrorManager.mk k 4 s).error_context = s) := by
  constructor
  · show get_context p s = _
    unfold get_context py_slice
    rw [show (max 0 ((p : Int) - 10)).toNat = p - 10 by omega]
    rw [show (min (s.length : Int) ((p : Int) + 10)).toNat = min s.length (p + 10)
      by omega]
  · intro h5
    show get_context 4 s = s
    unfold get_context py_slice
    rw [show (max 0 (((4 : Nat) : Int) - 10)).toNat = 0 by decide]
    rw [show (min (s.length : Int) (((4 : Nat) : Int) + 10)).toNat = 5 by omega]
    rw [List.drop_zero, Nat.sub_zero, ← h5, List.take_length]

/-- Closed instance of C6: the context of an error at position 4 of the
5-character source `abcde` is the whole source. -/
theorem claim_c6_witness :
    s_abcde.length = 5 ∧
    (ErrorManager.mk .UNEXPECTED_TOKEN 4 s_abcde).error_context = s_abcde :=
  ⟨rfl, (claim_c6_context_window .UNEXPECTED_TOKEN 4 s_abcde).2 rfl⟩

/-- C7: `parse_number` equals its specification — scan from the current
position while the current character is none of end-of-input, `,`, space,
`}`, `]`, then convert the scanned substring as a float if it contains `.`
and as an integer otherwise; concretely `"3"` parses to integer 3, `"3.5"`
to 3.5, and `"-7"` to integer -7. -/
theorem claim_c7_number_scan_and_convert :
    (∀ st : PState, parse_number st = parse_number_spec st) ∧
    parse_json 100 ⟨s_three, 0⟩ = .ok (.int 3, ⟨s_three, 1⟩) ∧
    parse_json 100 ⟨s_threefive, 0⟩ = .ok (.float (7 / 2), ⟨s_threefive, 3⟩) ∧
    parse_json 100 ⟨s_negseven, 0⟩ = .ok (.int (-7), ⟨s_negseven, 2⟩) := by
  refine ⟨parse_number_eq_spec, rfl, ?_, rfl⟩
  have h : parse_json 100 ⟨s_threefive, 0⟩ =
      .ok (.float ((digits_val ['3'] : ℚ) +
          (digits_val ['5'] : ℚ) / ((10 : ℚ) ^ (['5'] : List Char).length)),
        ⟨s_threefive, 3⟩) := rfl
  rw [h]
  norm_num [show (digits_val ['3'] : Nat) = 3 from rfl,
    show (digits_val ['5'] : Nat) = 5 from rfl]

/-- Closed instance of the refinement conjunct of C7. -/
theorem claim_c7_witness :
    parse_number ⟨s_three, 0⟩ = parse_number_spec ⟨s_three, 0⟩ :=
  claim_c7_number_scan_and_convert.1 ⟨s_three, 0⟩

/-- C8 (code behavior at the failing input): the scanned token `-` cannot be
converted; `int("-")` raises an untyped `ValueError` that escapes
`parse_number` as-is — no `InvalidCharacter` diagnostic is constructed.
(`INVALID_CHARACTER` is declared in `TidyErrorType` but raised nowhere in
the source.) -/
theorem claim_c8_number_conversion_failure :
    parse_json 100 ⟨s_dash, 0⟩ = .error (.valueError ['-']) := rfl

/-- C9: the cursor index never decreases: skipping, string/number scanning,
literal matching, collection parsing and the dispatcher each return a state
whose index is at least the starting index (and, the index being a natural
number incremented only, it can never become negative). -/
theorem claim_c9_index_monotone :
    (∀ (ch : Char) (st : PState), st.index ≤ (skip_spaces_and_char ch st).index) ∧
    (∀ (st : PState) (v : JValue) (st2 : PState),
      parse_string st = .ok (v, st2) → st.index ≤ st2.index) ∧
    (∀ (st : PState) (v : JValue) (st2 : PState),
      parse_number st = .ok (v, st2) → st.index ≤ st2.index) ∧
    (∀ (st : PState) (v : JValue) (st2 : PState),
      parse_boolean_or_null st = .ok (v, st2) → st.index ≤ st2.index) ∧
    (∀ (fuel : Nat) (end_char delimiter : Char) (st : PState) (v : JValue)
      (st2 : PState),
      parse_collection end_char (parse_json fuel) delimiter (parse_json fuel)
          fuel st = .ok (v, st2) → st.index ≤ st2.index) ∧
    (∀ (fuel : Nat) (st : PState) (v : JValue) (st2 : PState),
      parse_json fuel st = .ok (v, st2) → st.index ≤ st2.index) :=
  ⟨skip_index_le,
   fun _ _ _ h => parse_string_mono h,
   fun _ _ _ h => parse_number_mono h,
   fun _ _ _ h => parse_boolean_or_null_mono h,
   fun fuel ec d _ _ _ h =>
     parse_collection_mono ec d _ _ (parse_json_mono fuel) (parse_json_mono fuel)
       fuel h,
   parse_json_mono⟩

/-- Closed instance of C9: dispatching on `"3"` moves the cursor from 0 to
1, a non-decrease. -/
theorem claim_c9_witness :
    (PState.mk s_three 0).index ≤ (PState.mk s_three 1).index :=
  claim_c9_index_monotone.2.2.2.2.2 100 ⟨s_three, 0⟩ (.int 3) ⟨s_three, 1⟩ rfl

/-- C10: after `skip_spaces_and_char` returns, the current character is
neither the skipped character nor a space; consequently a repeated or
space-replaced separator between collection elements is silently accepted:
both `"[1,,2]"` and `"[1 2]"` parse to the sequence `[1, 2]`. -/
theorem claim_c10_separator_skipping :
    (∀ (ch : Char) (st : PState),
      get_char (skip_spaces_and_char ch st) ≠ some ch ∧
      get_char (skip_spaces_and_char ch st) ≠ some ' ') ∧
    parse_json 100 ⟨s_arr_ddel, 0⟩ = .ok (.arr [.int 1, .int 2], ⟨s_arr_ddel, 6⟩) ∧
    parse_json 100 ⟨s_arr_space, 0⟩ = .ok (.arr [.int 1, .int 2], ⟨s_arr_space, 5⟩) :=
  ⟨skip_post, rfl, rfl⟩

/-- Closed instance of C10: after skipping commas and spaces from position 2
of `"[1,,2]"`, the current character is not a comma. -/
theorem claim_c10_witness :
    get_char (skip_spaces_and_char ',' ⟨s_arr_ddel, 2⟩) ≠ some ',' :=
  (claim_c10_separator_skipping.1 ',' ⟨s_arr_ddel, 2⟩).1
